import Mathlib

/-!
A verification development for the GNSS RINEX batch downloader
(src/download_rinex.py).  The definitions below are a shallow embedding of
the script's core functions: calendar-date arithmetic (Python datetime.date,
toordinal / tm_yday), candidate filename generation, the retrying fetch
executor download_file, the per-unit resolver download_for_date_station,
and the batch orchestrator download_rinex_batch.  Network and filesystem
effects are made explicit through oracles:
  - the network is a function from (url, attempt index) to the response of
    that attempt (an HTTP status with a body length, or a transport
    exception) plus a flag saying whether the local directory creation and
    file write would succeed after an HTTP 200;
  - the filesystem is a function from path to Option Nat (existing file
    size), updated functionally when a download completes.
-/

namespace Rinex

/-! ## Calendar dates (Python datetime.date) -/

/-- A Gregorian calendar date, as Python `datetime.date(year, month, day)`. -/
structure Date where
  year : Nat
  month : Nat
  day : Nat
deriving DecidableEq, Repr

/-- Python `calendar.isleap` / the leap-year rule used by `datetime`. -/
def isLeap (y : Nat) : Bool :=
  y % 4 == 0 && (y % 100 != 0 || y % 400 == 0)

/-- Number of days in a month of a given year. -/
def daysInMonth (y m : Nat) : Nat :=
  if m = 2 then (if isLeap y then 29 else 28)
  else if m = 4 ∨ m = 6 ∨ m = 9 ∨ m = 11 then 30
  else 31

/-- Days in the months strictly before month `m` of year `y`. -/
def daysBeforeMonth (y m : Nat) : Nat :=
  ((List.range (m - 1)).map (fun k => daysInMonth y (k + 1))).sum

/-- Python `date.timetuple().tm_yday`: the 1-based day of the year. -/
def dayOfYear (d : Date) : Nat :=
  daysBeforeMonth d.year d.month + d.day

/-- Days in the years strictly before year `y` (years count from 1). -/
def daysBeforeYear (y : Nat) : Nat :=
  (y - 1) * 365 + (y - 1) / 4 - (y - 1) / 100 + (y - 1) / 400

/-- Python `date.toordinal()`: day 1 is 0001-01-01. Dates compare and
subtract by ordinal. -/
def toOrdinal (d : Date) : Nat :=
  daysBeforeYear d.year + dayOfYear d

/-- A well-formed date as `datetime.date` would accept it. -/
def validDate (d : Date) : Prop :=
  1 ≤ d.year ∧ 1 ≤ d.month ∧ d.month ≤ 12 ∧ 1 ≤ d.day ∧ d.day ≤ daysInMonth d.year d.month

instance (d : Date) : Decidable (validDate d) := by
  unfold validDate; infer_instance

/-- The calendar day after `d` (Python `d + timedelta(1)`). -/
def nextDate (d : Date) : Date :=
  if d.day < daysInMonth d.year d.month then ⟨d.year, d.month, d.day + 1⟩
  else if d.month < 12 then ⟨d.year, d.month + 1, 1⟩
  else ⟨d.year + 1, 1, 1⟩

/-- `d + timedelta(n)`. -/
def addDays (d : Date) : Nat → Date
  | 0 => d
  | n + 1 => nextDate (addDays d n)

/-- `daterange(start_date, end_date)` from the script: yields
`start_date + timedelta(n)` for `n` in `range((end_date - start_date).days + 1)`;
empty when the end precedes the start (Python `range` of a non-positive
number). -/
def daterange (s e : Date) : List Date :=
  (List.range ((toOrdinal e : Int) + 1 - (toOrdinal s : Int)).toNat).map (addDays s)

example : dayOfYear ⟨2021, 6, 1⟩ = 152 := by decide
example : toOrdinal ⟨2020, 1, 3⟩ - toOrdinal ⟨2020, 1, 1⟩ = 2 := by decide
example : daterange ⟨2020, 1, 1⟩ ⟨2020, 1, 3⟩ =
    [⟨2020, 1, 1⟩, ⟨2020, 1, 2⟩, ⟨2020, 1, 3⟩] := by decide
example : daterange ⟨2020, 1, 3⟩ ⟨2020, 1, 1⟩ = [] := by decide

/-! ## The fetch executor: `download_file` -/

/-- What one HTTP GET attempt yields: a status code with the length of the
response body, or a transport-level exception (timeout, connection reset,
DNS failure). -/
inductive FetchResp where
  | status (code : Nat) (bodyLen : Nat)
  | exn
deriving DecidableEq, Repr

/-- The environment of one attempt: the network's response, and whether the
local side effects after an HTTP 200 (directory creation in
`ensure_directory`, opening and writing the file) run without raising. -/
structure AttemptEnv where
  resp : FetchResp
  writeOk : Bool
deriving DecidableEq, Repr

/-- Observable trace of one `download_file` call: the returned flag, how
many GET attempts were made, how many backoff sleeps were taken, and the
body length written to disk on success. -/
structure DFTrace where
  success : Bool
  attempts : Nat
  sleeps : Nat
  written : Option Nat
deriving DecidableEq, Repr

/-- The body of the `for attempt in range(1, max_retries + 1)` loop of
`download_file`.  `attempt` is the 1-based loop counter and `remaining`
the number of iterations left, so `remaining = 1` means this is the last
attempt (`attempt = max_retries`) and the `except` branch returns `False`
instead of sleeping.  A 200 with a failing local write raises inside the
`try`, so it lands in the same `except` branch as a transport exception or
a raised 5xx `HTTPError`. -/
def downloadFileGo (env : Nat → AttemptEnv) : Nat → Nat → DFTrace
  | _, 0 => ⟨false, 0, 0, none⟩
  | attempt, remaining + 1 =>
    let e := env attempt
    let retry : DFTrace :=
      if remaining = 0 then ⟨false, 1, 0, none⟩
      else
        let t := downloadFileGo env (attempt + 1) remaining
        ⟨t.success, t.attempts + 1, t.sleeps + 1, t.written⟩
    match e.resp with
    | FetchResp.exn => retry
    | FetchResp.status c bodyLen =>
      if c = 200 then
        if e.writeOk then ⟨true, 1, 0, some bodyLen⟩ else retry
      else if c = 404 then ⟨false, 1, 0, none⟩
      else if 500 ≤ c ∧ c < 600 then retry
      else ⟨false, 1, 0, none⟩

/-- `download_file(url, local_path, token, max_retries)`, with the network
and local-write behaviour of attempt `i` given by `env i` (attempts are
numbered from 1). -/
def download_file (env : Nat → AttemptEnv) (maxRetries : Nat) : DFTrace :=
  downloadFileGo env 1 maxRetries

example :
    download_file (fun _ => ⟨FetchResp.exn, true⟩) 3 = ⟨false, 3, 2, none⟩ := by decide
example :
    download_file (fun _ => ⟨FetchResp.status 404 0, true⟩) 3 = ⟨false, 1, 0, none⟩ := by
  decide
example :
    download_file (fun _ => ⟨FetchResp.status 200 7, true⟩) 3 = ⟨true, 1, 0, some 7⟩ := by
  decide
example :
    download_file (fun i => if i = 1 then ⟨FetchResp.status 503 0, true⟩
      else ⟨FetchResp.status 200 7, true⟩) 3 = ⟨true, 2, 1, some 7⟩ := by decide

/-! ## The candidate generator -/

/-- ASCII `str.lower()` (station ids are ASCII codes). -/
def strLower (s : String) : String := String.mk (s.data.map Char.toLower)

/-- ASCII `str.upper()`. -/
def strUpper (s : String) : String := String.mk (s.data.map Char.toUpper)

/-- Python format `f"\x7bn:0wd\x7d"`: decimal with zero padding to width `w`. -/
def padZero (w n : Nat) : String :=
  let s := toString n
  String.mk (List.replicate (w - s.length) '0') ++ s

/-- One filename of the pattern `<station><DOY>00.<yy>d.Z`, where the
station code string is passed already cased. -/
def rinexFilename (cased : String) (d : Date) : String :=
  cased ++ padZero 3 (dayOfYear d) ++ "00." ++ padZero 2 (d.year % 100) ++ "d.Z"

/-- The `seen` set / `unique` list loop of `generate_candidate_filenames`:
drop later occurrences, keep first-seen order. -/
def dedupFirstSeen (seen : List String) : List String → List String
  | [] => []
  | p :: rest =>
    if p ∈ seen then dedupFirstSeen seen rest
    else p :: dedupFirstSeen (p :: seen) rest

/-- `generate_candidate_filenames(station, current_date)`. -/
def generate_candidate_filenames (station : String) (d : Date) : List String :=
  dedupFirstSeen [] [rinexFilename (strLower station) d, rinexFilename (strUpper station) d]

/-- URL directory for a given year / day-of-year. -/
def urlBase (year doy : Nat) : String :=
  "https://gage-data.earthscope.org/archive/gnss/rinex/obs/" ++
    toString year ++ "/" ++ padZero 3 doy ++ "/"

/-- `generate_rinex_url_and_path(station, current_date, rinex_root)`.
`os.path.join` on POSIX with relative components is "/"-separated
concatenation. -/
def generate_rinex_url_and_path (station : String) (d : Date) (rinexRoot : String) :
    List (String × String) :=
  let year := d.year
  let doy := dayOfYear d
  let baseDir := rinexRoot ++ "/" ++ toString year ++ "/" ++ padZero 3 doy
  (generate_candidate_filenames station d).map (fun fname =>
    (urlBase year doy ++ fname, baseDir ++ "/" ++ fname))

example :
    generate_candidate_filenames "p405" ⟨2021, 6, 1⟩ =
      ["p40515200.21d.Z", "P40515200.21d.Z"] := by decide
example :
    generate_candidate_filenames "1234" ⟨2021, 6, 1⟩ = ["123415200.21d.Z"] := by decide
example :
    generate_rinex_url_and_path "ab" ⟨2020, 1, 3⟩ "r" =
      [("https://gage-data.earthscope.org/archive/gnss/rinex/obs/2020/003/ab00300.20d.Z",
        "r/2020/003/ab00300.20d.Z"),
       ("https://gage-data.earthscope.org/archive/gnss/rinex/obs/2020/003/AB00300.20d.Z",
        "r/2020/003/AB00300.20d.Z")] := by decide

/-! ## The unit resolver: `download_for_date_station` -/

/-- The filesystem, as path → size of an existing file. -/
def FileSys : Type := String → Option Nat

/-- `os.path.isfile(p) and os.path.getsize(p) > 0`. -/
def fileOk (fs : FileSys) (p : String) : Bool :=
  match fs p with
  | some n => decide (0 < n)
  | none => false

/-- Record a completed download of `len` bytes at `p`. -/
def fsWrite (fs : FileSys) (p : String) (len : Nat) : FileSys :=
  fun q => if q = p then some len else fs q

/-- Observable outcome of one `download_for_date_station` call: the returned
local path, the returned flag, the number of dry-run "[DRY RUN] Would try"
log lines, and the number of network GET attempts performed. -/
structure UnitResult where
  path : Option String
  ok : Bool
  reports : Nat
  fetches : Nat
deriving DecidableEq, Repr

/-- The `for url, local_path in candidates` loop of the normal (non-dry)
run: per candidate, the existence-and-size short circuit, then
`download_file`.  Returns the successful candidate's local path (`none`
when all candidates are exhausted), the total number of GET attempts, and
the resulting filesystem. -/
def resolveGo (net : String → Nat → AttemptEnv) (maxRetries : Nat) (fs : FileSys) :
    List (String × String) → Option String × Nat × FileSys
  | [] => (none, 0, fs)
  | (url, localPath) :: rest =>
    if fileOk fs localPath then (some localPath, 0, fs)
    else
      let t := download_file (net url) maxRetries
      if t.success then
        (some localPath, t.attempts, fsWrite fs localPath (t.written.getD 0))
      else
        let r := resolveGo net maxRetries fs rest
        (r.1, t.attempts + r.2.1, r.2.2)

/-- `download_for_date_station(station, current_date, token, rinex_root,
dry_run)`, taking the already-generated candidate list.  The Python
function returns `(candidates[0][1], flag)` on dry run and on exhaustion;
`path` is `none` only in the (unreachable for this generator) empty-
candidates case, where Python would raise an IndexError. -/
def download_for_date_station (candidates : List (String × String))
    (net : String → Nat → AttemptEnv) (maxRetries : Nat) (fs : FileSys)
    (dryRun : Bool) : UnitResult × FileSys :=
  if dryRun then
    (⟨(candidates.head?).map Prod.snd, true, candidates.length, 0⟩, fs)
  else
    let r := resolveGo net maxRetries fs candidates
    match r.1 with
    | some p => (⟨some p, true, 0, r.2.1⟩, r.2.2)
    | none => (⟨(candidates.head?).map Prod.snd, false, 0, r.2.1⟩, r.2.2)

/-! ## The batch orchestrator: `download_rinex_batch` -/

/-- `station_periods.get(st, (None, None))`, as a total map from station id
to its optional operational start and stop dates. -/
def StationPeriods : Type := String → Option Date × Option Date

/-- The window-resolution steps of the task-generation loop of
`download_rinex_batch` (`eff_start` / `eff_end`).  A `None` bound leaves
the requested bound in place; Python date comparison is ordinal
comparison. -/
def effectiveWindow (periods : StationPeriods) (st : String)
    (startDate endDate : Date) : Date × Date :=
  let stStart := (periods st).1
  let stStop := (periods st).2
  let effStart := match stStart with
    | some s => if toOrdinal startDate < toOrdinal s then s else startDate
    | none => startDate
  let effEnd := match stStop with
    | some s => if toOrdinal s < toOrdinal endDate then s else endDate
    | none => endDate
  (effStart, effEnd)

/-- The Work Units one station contributes to `tasks`: empty when the
loop hits `if eff_end < eff_start: continue`, otherwise one `(st, date)`
pair per day of `daterange(eff_start, eff_end)`. -/
def stationTasks (periods : StationPeriods) (startDate endDate : Date)
    (st : String) : List (String × Date) :=
  let w := effectiveWindow periods st startDate endDate
  if toOrdinal w.2 < toOrdinal w.1 then []
  else (daterange w.1 w.2).map (fun d => (st, d))

/-- The full `tasks` list built by `download_rinex_batch`. -/
def batchTasks (stations : List String) (startDate endDate : Date)
    (periods : StationPeriods) : List (String × Date) :=
  stations.flatMap (stationTasks periods startDate endDate)

/-- The stations logged as "Skipping station ...: no overlap with date
range" by the same loop. -/
def skippedStations (stations : List String) (startDate endDate : Date)
    (periods : StationPeriods) : List String :=
  stations.filter (fun st =>
    let w := effectiveWindow periods st startDate endDate
    toOrdinal w.2 < toOrdinal w.1)

/-- Aggregate outcome of one batch run, resolving the units in sequence
(Python runs them on a thread pool; unit results are order-independent
counts and per-unit records here). -/
structure BatchRun where
  results : List (String × Date × Option String × Bool)
  reports : Nat
  fetches : Nat
  fs : FileSys

/-- Run every scheduled Work Unit through `download_for_date_station`,
threading the filesystem. -/
def runBatch (net : String → Nat → AttemptEnv) (maxRetries : Nat)
    (outRoot : String) (dryRun : Bool) :
    List (String × Date) → FileSys → BatchRun
  | [], fs => ⟨[], 0, 0, fs⟩
  | (st, d) :: rest, fs =>
    let u := download_for_date_station (generate_rinex_url_and_path st d outRoot)
      net maxRetries fs dryRun
    let r := runBatch net maxRetries outRoot dryRun rest u.2
    ⟨(st, d, u.1.path, u.1.ok) :: r.results, u.1.reports + r.reports,
      u.1.fetches + r.fetches, r.fs⟩

/-- The result-collection loop of `download_rinex_batch` (the
`as_completed` loop): each unit's `future.result()` either yields
`(local_path, success)` or raises, in which case the unit is recorded as
`(st, dt, None, False)` and the loop continues with the remaining units.
`outcome t = none` models "resolving unit `t` raised an unexpected
exception". -/
def collectResults (tasks : List (String × Date))
    (outcome : String × Date → Option (Option String × Bool)) :
    List ((String × Date) × Option String × Bool) :=
  tasks.map (fun t =>
    match outcome t with
    | some r => (t, r.1, r.2)
    | none => (t, none, false))

/-- `n_success` of the final summary. -/
def countSuccess (results : List ((String × Date) × Option String × Bool)) : Nat :=
  (results.filter (fun r => r.2.2)).length

/-- `n_fail` of the final summary: computed as `total - n_success`. -/
def countFail (total : Nat)
    (results : List ((String × Date) × Option String × Bool)) : Nat :=
  total - countSuccess results

/-! ## Spec-side notions -/

/-- `max` of two dates under Python date ordering, as the spec's
`effective_start = max(requested_range.start, entity_window.start or
requested_range.start)` reads. -/
def maxDate (a b : Date) : Date :=
  if toOrdinal a < toOrdinal b then b else a

/-- `min` of two dates under Python date ordering. -/
def minDate (a b : Date) : Date :=
  if toOrdinal b < toOrdinal a then b else a

/-- A transient failure in the spec's sense: an HTTP 5xx response or a
transport exception. -/
def netTransient (e : AttemptEnv) : Prop :=
  e.resp = FetchResp.exn ∨
    ∃ c l, e.resp = FetchResp.status c l ∧ 500 ≤ c ∧ c < 600

/-- An attempt whose control flow lands in the `except` branch of
`download_file`: a transport exception, a raised 5xx `HTTPError`, or an
HTTP 200 whose local directory creation / file write raises. -/
def transientStep (e : AttemptEnv) : Prop :=
  e.resp = FetchResp.exn ∨
    (∃ l, e.resp = FetchResp.status 200 l ∧ e.writeOk = false) ∨
    ∃ c l, e.resp = FetchResp.status c l ∧ 500 ≤ c ∧ c < 600

/-! ## Helper lemmas -/

lemma daterange_length (s e : Date) :
    (daterange s e).length = ((toOrdinal e : Int) + 1 - toOrdinal s).toNat := by
  simp [daterange]

lemma daterange_ne_nil (s e : Date) (h : toOrdinal s ≤ toOrdinal e) :
    daterange s e ≠ [] := by
  intro hnil
  have hlen := congrArg List.length hnil
  rw [daterange_length] at hlen
  simp only [List.length_nil] at hlen
  omega

lemma daysInMonth_pos (y m : Nat) : 1 ≤ daysInMonth y m := by
  unfold daysInMonth
  split
  · split <;> omega
  · split <;> omega

lemma daysBeforeMonth_succ (y m : Nat) (hm : 1 ≤ m) :
    daysBeforeMonth y (m + 1) = daysBeforeMonth y m + daysInMonth y m := by
  have h1 : m + 1 - 1 = (m - 1) + 1 := by omega
  have h2 : m - 1 + 1 = m := by omega
  unfold daysBeforeMonth
  rw [h1, List.range_succ, List.map_append, List.sum_append]
  simp [h2]

lemma daysBeforeMonth_12 (y : Nat) :
    daysBeforeMonth y 12 = 334 + (if isLeap y then 1 else 0) := by
  have hr : List.range 11 = [0, 1, 2, 3, 4, 5, 6, 7, 8, 9, 10] := rfl
  by_cases hl : isLeap y <;> simp [daysBeforeMonth, hr, daysInMonth, hl]

lemma isLeap_iff (y : Nat) :
    isLeap y = true ↔ (y % 4 = 0 ∧ (y % 100 ≠ 0 ∨ y % 400 = 0)) := by
  simp [isLeap]

set_option maxHeartbeats 1000000 in
lemma daysBeforeYear_succ (y : Nat) (hy : 1 ≤ y) :
    daysBeforeYear (y + 1) = daysBeforeYear y + 365 + (if isLeap y then 1 else 0) := by
  unfold daysBeforeYear
  have h2 : y + 1 - 1 = y := by omega
  rw [h2]
  by_cases hl : isLeap y
  · rw [if_pos hl]
    have hc := (isLeap_iff y).mp hl
    omega
  · rw [if_neg hl]
    have hc : ¬(y % 4 = 0 ∧ (y % 100 ≠ 0 ∨ y % 400 = 0)) :=
      fun h => hl ((isLeap_iff y).mpr h)
    by_cases h4 : y % 4 = 0
    · by_cases h100 : y % 100 = 0
      · by_cases h400 : y % 400 = 0
        · exact absurd ⟨h4, Or.inr h400⟩ hc
        · omega
      · exact absurd ⟨h4, Or.inl h100⟩ hc
    · omega

lemma toOrdinal_mk (y mo dy : Nat) :
    toOrdinal ⟨y, mo, dy⟩ = daysBeforeYear y + (daysBeforeMonth y mo + dy) := rfl

lemma validDate_mk (y mo dy : Nat) :
    validDate ⟨y, mo, dy⟩ ↔
      (1 ≤ y ∧ 1 ≤ mo ∧ mo ≤ 12 ∧ 1 ≤ dy ∧ dy ≤ daysInMonth y mo) := Iff.rfl

lemma toOrdinal_nextDate (d : Date) (h : validDate d) :
    toOrdinal (nextDate d) = toOrdinal d + 1 ∧ validDate (nextDate d) := by
  obtain ⟨y, mo, dy⟩ := d
  obtain ⟨hy, hm1, hm2, hd1, hd2⟩ := (validDate_mk y mo dy).mp h
  unfold nextDate
  dsimp only
  by_cases hcase1 : dy < daysInMonth y mo
  · rw [if_pos hcase1]
    refine ⟨?_, ?_⟩
    · rw [toOrdinal_mk, toOrdinal_mk]
      omega
    · rw [validDate_mk]
      exact ⟨hy, hm1, hm2, by omega, hcase1⟩
  · rw [if_neg hcase1]
    have hdeq : dy = daysInMonth y mo := by omega
    by_cases hcase2 : mo < 12
    · rw [if_pos hcase2]
      have hb := daysBeforeMonth_succ y mo hm1
      refine ⟨?_, ?_⟩
      · rw [toOrdinal_mk, toOrdinal_mk]
        omega
      · rw [validDate_mk]
        exact ⟨hy, by omega, by omega, by omega, daysInMonth_pos _ _⟩
    · rw [if_neg hcase2]
      have hm12 : mo = 12 := by omega
      subst hm12
      have hdim : daysInMonth y 12 = 31 := rfl
      have hd31 : dy = 31 := by omega
      subst hd31
      refine ⟨?_, ?_⟩
      · rw [toOrdinal_mk, toOrdinal_mk]
        have h1 := daysBeforeYear_succ y hy
        have h2 := daysBeforeMonth_12 y
        have h0 : daysBeforeMonth (y + 1) 1 = 0 := rfl
        rw [h0, h1, h2]
        by_cases hl : isLeap y <;> simp [hl]
      · rw [validDate_mk]
        exact ⟨by omega, by omega, by omega, by omega, daysInMonth_pos _ _⟩

lemma toOrdinal_addDays (d : Date) (h : validDate d) (n : Nat) :
    toOrdinal (addDays d n) = toOrdinal d + n ∧ validDate (addDays d n) := by
  induction n with
  | zero => exact ⟨rfl, h⟩
  | succ k ih =>
    obtain ⟨h1, h2⟩ := ih
    have h3 := toOrdinal_nextDate (addDays d k) h2
    refine ⟨?_, h3.2⟩
    show toOrdinal (nextDate (addDays d k)) = toOrdinal d + (k + 1)
    omega

lemma daterange_map_toOrdinal (s e : Date) (hs : validDate s) :
    (daterange s e).map toOrdinal =
      List.range' (toOrdinal s) (((toOrdinal e : Int) + 1 - toOrdinal s).toNat) := by
  unfold daterange
  rw [List.map_map, List.range'_eq_map_range]
  refine List.map_congr_left (fun i _ => ?_)
  show toOrdinal (addDays s i) = toOrdinal s + i
  exact (toOrdinal_addDays s hs i).1

lemma string_append_left_cancel (a : String) {b c : String}
    (h : a ++ b = a ++ c) : b = c := by
  have hd := congrArg String.data h
  rw [String.data_append, String.data_append] at hd
  exact String.ext (List.append_cancel_left hd)

lemma string_append_left_injective (a : String) :
    Function.Injective (fun s => a ++ s) :=
  fun _ _ h => string_append_left_cancel a h

lemma generate_candidate_filenames_eq (st : String) (d : Date) :
    generate_candidate_filenames st d =
      if rinexFilename (strUpper st) d = rinexFilename (strLower st) d
      then [rinexFilename (strLower st) d]
      else [rinexFilename (strLower st) d, rinexFilename (strUpper st) d] := by
  by_cases h : rinexFilename (strUpper st) d = rinexFilename (strLower st) d <;>
    simp [generate_candidate_filenames, dedupFirstSeen, h]

lemma downloadFileGo_transient (env : Nat → AttemptEnv)
    (h : ∀ i, transientStep (env i)) :
    ∀ r a, 1 ≤ r → downloadFileGo env a r = ⟨false, r, r - 1, none⟩ := by
  intro r
  induction r with
  | zero => intro a ha; omega
  | succ n ih =>
    intro a _
    have hstep := h a
    have hretry : (if n = 0 then (⟨false, 1, 0, none⟩ : DFTrace)
        else
          let t := downloadFileGo env (a + 1) n
          ⟨t.success, t.attempts + 1, t.sleeps + 1, t.written⟩) =
        ⟨false, n + 1, n, none⟩ := by
      by_cases hn : n = 0
      · subst hn; simp
      · have h1 : 1 ≤ n := Nat.one_le_iff_ne_zero.mpr hn
        rw [if_neg hn]
        simp only [ih (a + 1) h1]
        have : n - 1 + 1 = n := Nat.succ_pred_eq_of_pos h1
        simp [this]
    rcases henv : env a with ⟨resp, w⟩
    rw [henv] at hstep
    rcases resp with ⟨c, l⟩ | _
    · rcases hstep with h1 | ⟨l', h2, hw⟩ | ⟨c', l', h3, hc1, hc2⟩
      · exact absurd h1 (by simp)
      · have hc : c = 200 := by
          have := congrArg (fun r => match r with
            | FetchResp.status a _ => a
            | FetchResp.exn => 0) h2
          simpa using this
        have hw' : w = false := hw
        subst hc hw'
        simp only [downloadFileGo, henv]
        simpa using hretry
      · have hc : c = c' := by
          have := congrArg (fun r => match r with
            | FetchResp.status a _ => a
            | FetchResp.exn => 0) h3
          simpa using this
        subst hc
        have hne200 : ¬(c = 200) := by omega
        have hne404 : ¬(c = 404) := by omega
        simp only [downloadFileGo, henv]
        rw [if_neg hne200, if_neg hne404, if_pos ⟨hc1, hc2⟩]
        exact hretry
    · simp only [downloadFileGo, henv]
      exact hretry

lemma download_file_transient (env : Nat → AttemptEnv) (m : Nat)
    (h : ∀ i, transientStep (env i)) (hm : 1 ≤ m) :
    download_file env m = ⟨false, m, m - 1, none⟩ :=
  downloadFileGo_transient env h m 1 hm

lemma download_file_nonretryable (env : Nat → AttemptEnv) (m c l : Nat)
    (henv : (env 1).resp = FetchResp.status c l) (hm : 1 ≤ m)
    (hne200 : c ≠ 200) (hno5xx : ¬(500 ≤ c ∧ c < 600)) :
    download_file env m = ⟨false, 1, 0, none⟩ := by
  obtain ⟨n, rfl⟩ : ∃ n, m = n + 1 := ⟨m - 1, by omega⟩
  show downloadFileGo env 1 (n + 1) = _
  rcases he : env 1 with ⟨resp, w⟩
  rw [he] at henv
  simp only at henv
  subst henv
  simp only [downloadFileGo, he]
  rw [if_neg hne200]
  by_cases h404 : c = 404
  · rw [if_pos h404]
  · rw [if_neg h404, if_neg hno5xx]

lemma resolveGo_all_fail (net : String → Nat → AttemptEnv) (m : Nat) (fs : FileSys) :
    ∀ cands : List (String × String),
      (∀ c ∈ cands, fileOk fs c.2 = false ∧ (download_file (net c.1) m).success = false) →
      (resolveGo net m fs cands).1 = none ∧ (resolveGo net m fs cands).2.2 = fs := by
  intro cands
  induction cands with
  | nil => intro _; exact ⟨rfl, rfl⟩
  | cons c rest ih =>
    intro h
    obtain ⟨u, p⟩ := c
    obtain ⟨hf, hs⟩ := h (u, p) (List.mem_cons_self _ _)
    have hrest := ih (fun x hx => h x (List.mem_cons_of_mem _ hx))
    simp [resolveGo, hf, hs, hrest.1, hrest.2]

lemma resolveUnit_cached (u p : String) (rest : List (String × String))
    (net : String → Nat → AttemptEnv) (m : Nat) (fs : FileSys)
    (h : fileOk fs p = true) :
    download_for_date_station ((u, p) :: rest) net m fs false =
      (⟨some p, true, 0, 0⟩, fs) := by
  simp [download_for_date_station, resolveGo, h]

/-! ## Claims -/

/-- C1: for every entity window (optional start, optional stop) and
requested range, the availability resolver computes
`effective_start = max(requested start, entity start or requested start)`
and `effective_end = min(requested end, entity end or requested end)`,
a missing bound defaulting to the requested bound; and the entity is
skipped — contributing zero Work Units and recorded as a skip — exactly
when `effective_start > effective_end`. -/
theorem C1_window_resolution (periods : StationPeriods) (st : String) (s e : Date) :
    (effectiveWindow periods st s e).1 = maxDate s (((periods st).1).getD s) ∧
    (effectiveWindow periods st s e).2 = minDate e (((periods st).2).getD e) ∧
    (stationTasks periods s e st = [] ↔
      toOrdinal (effectiveWindow periods st s e).2 <
        toOrdinal (effectiveWindow periods st s e).1) ∧
    (st ∈ skippedStations [st] s e periods ↔
      toOrdinal (effectiveWindow periods st s e).2 <
        toOrdinal (effectiveWindow periods st s e).1) := by
  refine ⟨?_, ?_, ?_, ?_⟩
  · rcases hp : (periods st).1 with _ | v <;>
      simp [effectiveWindow, maxDate, hp]
  · rcases hp : (periods st).2 with _ | v <;>
      simp [effectiveWindow, minDate, hp]
  · by_cases hlt : toOrdinal (effectiveWindow periods st s e).2 <
        toOrdinal (effectiveWindow periods st s e).1
    · simp [stationTasks, hlt]
    · have hne := daterange_ne_nil (effectiveWindow periods st s e).1
        (effectiveWindow periods st s e).2 (by omega)
      simp [stationTasks, hlt, hne]
  · simp [skippedStations, List.mem_filter]

/-- C2 counterexample: with the default `max_retries = 3` and every
attempt a transport exception, `download_file` performs 3 attempts but
only 2 backoff delays — not 3 delays as the claim states. -/
theorem C2_counterexample :
    (download_file (fun _ => ⟨FetchResp.exn, true⟩) 3).attempts = 3 ∧
    (download_file (fun _ => ⟨FetchResp.exn, true⟩) 3).sleeps = 2 ∧
    (download_file (fun _ => ⟨FetchResp.exn, true⟩) 3).sleeps ≠ 3 := by decide

/-- C2 (amended): for every candidate whose every fetch attempt yields a
transient failure (HTTP 5xx or a transport exception), `download_file`
performs exactly `max_retries` attempts and exactly `max_retries - 1`
delays of the configured backoff duration (the delay runs only between
consecutive attempts) before returning a definitive failure; a
non-transient failing status (404 or any other non-200, non-5xx code) is
never retried: one attempt, zero delays. -/
theorem C2_retry_bound (m : Nat) (hm : 1 ≤ m) :
    (∀ env : Nat → AttemptEnv, (∀ i, netTransient (env i)) →
      download_file env m = ⟨false, m, m - 1, none⟩) ∧
    (∀ (env : Nat → AttemptEnv) (c l : Nat),
      (env 1).resp = FetchResp.status c l → c ≠ 200 → ¬(500 ≤ c ∧ c < 600) →
      download_file env m = ⟨false, 1, 0, none⟩) := by
  constructor
  · intro env henv
    refine download_file_transient env m (fun i => ?_) hm
    rcases henv i with h | ⟨c, l, h1, h2, h3⟩
    · exact Or.inl h
    · exact Or.inr (Or.inr ⟨c, l, h1, h2, h3⟩)
  · intro env c l h1 h2 h3
    exact download_file_nonretryable env m c l h1 hm h2 h3

/-- C2 witness: the amended bound at `max_retries = 3`, for an
all-transport-exception candidate and for a 403 response. -/
theorem C2_retry_bound_witness :
    download_file (fun _ => ⟨FetchResp.exn, true⟩) 3 = ⟨false, 3, 2, none⟩ ∧
    download_file (fun _ => ⟨FetchResp.status 403 0, true⟩) 3 = ⟨false, 1, 0, none⟩ :=
  ⟨(C2_retry_bound 3 (by decide)).1 _ (fun _ => Or.inl rfl),
   (C2_retry_bound 3 (by decide)).2 _ 403 0 rfl (by decide) (by decide)⟩

/-- C4: every entity retained after window resolution yields exactly one
Work Unit per calendar day of its effective range, both endpoints
included: the task count is `effective_end - effective_start + 1` days,
and the dates of the generated units are exactly the consecutive calendar
days with ordinals from `toOrdinal effective_start` through
`toOrdinal effective_end`, each paired with the entity's identifier. -/
theorem C4_one_unit_per_day (periods : StationPeriods) (st : String) (s e : Date)
    (hvalid : validDate (effectiveWindow periods st s e).1)
    (hle : toOrdinal (effectiveWindow periods st s e).1 ≤
      toOrdinal (effectiveWindow periods st s e).2) :
    (stationTasks periods s e st).length =
      toOrdinal (effectiveWindow periods st s e).2 -
        toOrdinal (effectiveWindow periods st s e).1 + 1 ∧
    (stationTasks periods s e st).map (fun t => toOrdinal t.2) =
      List.range' (toOrdinal (effectiveWindow periods st s e).1)
        (toOrdinal (effectiveWindow periods st s e).2 -
          toOrdinal (effectiveWindow periods st s e).1 + 1) ∧
    ∀ t ∈ stationTasks periods s e st, t.1 = st := by
  have hnle : ¬(toOrdinal (effectiveWindow periods st s e).2 <
      toOrdinal (effectiveWindow periods st s e).1) := by omega
  have htasks : stationTasks periods s e st =
      (daterange (effectiveWindow periods st s e).1
        (effectiveWindow periods st s e).2).map (fun d => (st, d)) := by
    simp [stationTasks, hnle]
  have hcount : (((toOrdinal (effectiveWindow periods st s e).2 : Int) + 1 -
      toOrdinal (effectiveWindow periods st s e).1).toNat) =
      toOrdinal (effectiveWindow periods st s e).2 -
        toOrdinal (effectiveWindow periods st s e).1 + 1 := by omega
  refine ⟨?_, ?_, ?_⟩
  · rw [htasks, List.length_map, daterange_length, hcount]
  · rw [htasks, List.map_map]
    have hmap : ((fun t : String × Date => toOrdinal t.2) ∘ fun d => (st, d)) =
        toOrdinal := rfl
    rw [hmap, daterange_map_toOrdinal _ _ hvalid, hcount]
  · intro t ht
    rw [htasks] at ht
    obtain ⟨d, _, rfl⟩ := List.mem_map.mp ht
    rfl

/-- C4 witness: scenario A — entity window `[2020-01-01, 2020-01-03]`
under requested range `[2019-12-01, 2025-01-01]` gives exactly 3 Work
Units — and scenario B — no window data under requested range
`[2021-06-01, 2021-06-02]` gives exactly 2 Work Units. -/
theorem C4_one_unit_per_day_witness :
    (stationTasks (fun _ => (some ⟨2020, 1, 1⟩, some ⟨2020, 1, 3⟩))
      ⟨2019, 12, 1⟩ ⟨2025, 1, 1⟩ "X").length = 3 ∧
    (stationTasks (fun _ => (none, none)) ⟨2021, 6, 1⟩ ⟨2021, 6, 2⟩ "Y").length = 2 :=
  ⟨((C4_one_unit_per_day (fun _ => (some ⟨2020, 1, 1⟩, some ⟨2020, 1, 3⟩))
      "X" ⟨2019, 12, 1⟩ ⟨2025, 1, 1⟩ (by decide) (by decide)).1).trans (by decide),
   ((C4_one_unit_per_day (fun _ => (none, none))
      "Y" ⟨2021, 6, 1⟩ ⟨2021, 6, 2⟩ (by decide) (by decide)).1).trans (by decide)⟩

/-- C5: for every (entity identifier, date) pair (and output root), the
candidate generator returns a non-empty, duplicate-free ordered sequence
of (url, local_path) pairs: the lowercase-identifier and
uppercase-identifier filename variants are both present, equal variants
are collapsed preserving first-seen order (lowercase first), and each
candidate's url and local path are built from the year and the
three-digit zero-padded day-of-year directory of the date.  Determinism
is inherent: the generator is a pure function of its arguments. -/
theorem C5_candidate_generator (st : String) (d : Date) (root : String) :
    generate_candidate_filenames st d =
      (if rinexFilename (strUpper st) d = rinexFilename (strLower st) d
       then [rinexFilename (strLower st) d]
       else [rinexFilename (strLower st) d, rinexFilename (strUpper st) d]) ∧
    generate_candidate_filenames st d ≠ [] ∧
    (generate_candidate_filenames st d).Nodup ∧
    rinexFilename (strLower st) d ∈ generate_candidate_filenames st d ∧
    rinexFilename (strUpper st) d ∈ generate_candidate_filenames st d ∧
    generate_rinex_url_and_path st d root =
      (generate_candidate_filenames st d).map (fun fname =>
        (urlBase d.year (dayOfYear d) ++ fname,
         root ++ "/" ++ toString d.year ++ "/" ++ padZero 3 (dayOfYear d) ++ "/" ++ fname)) ∧
    generate_rinex_url_and_path st d root ≠ [] ∧
    ((generate_rinex_url_and_path st d root).map Prod.fst).Nodup ∧
    ((generate_rinex_url_and_path st d root).map Prod.snd).Nodup := by
  have heq := generate_candidate_filenames_eq st d
  have hnodup : (generate_candidate_filenames st d).Nodup := by
    rw [heq]
    by_cases h : rinexFilename (strUpper st) d = rinexFilename (strLower st) d <;>
      simp [h]
    exact fun hc => h hc.symm
  have hne : generate_candidate_filenames st d ≠ [] := by
    rw [heq]
    by_cases h : rinexFilename (strUpper st) d = rinexFilename (strLower st) d <;>
      simp [h]
  have hfst : generate_rinex_url_and_path st d root =
      (generate_candidate_filenames st d).map (fun fname =>
        (urlBase d.year (dayOfYear d) ++ fname,
         root ++ "/" ++ toString d.year ++ "/" ++ padZero 3 (dayOfYear d) ++ "/" ++ fname)) := rfl
  refine ⟨heq, hne, hnodup, ?_, ?_, hfst, ?_, ?_, ?_⟩
  · rw [heq]
    by_cases h : rinexFilename (strUpper st) d = rinexFilename (strLower st) d <;>
      simp [h]
  · rw [heq]
    by_cases h : rinexFilename (strUpper st) d = rinexFilename (strLower st) d <;>
      simp [h]
  · rw [hfst]
    simpa using hne
  · rw [hfst, List.map_map]
    have hcomp : (Prod.fst ∘ fun fname =>
        (urlBase d.year (dayOfYear d) ++ fname,
         root ++ "/" ++ toString d.year ++ "/" ++ padZero 3 (dayOfYear d) ++ "/" ++ fname)) =
        (fun fname => urlBase d.year (dayOfYear d) ++ fname) := rfl
    rw [hcomp]
    exact hnodup.map (string_append_left_injective _)
  · rw [hfst, List.map_map]
    have hcomp : (Prod.snd ∘ fun fname =>
        (urlBase d.year (dayOfYear d) ++ fname,
         root ++ "/" ++ toString d.year ++ "/" ++ padZero 3 (dayOfYear d) ++ "/" ++ fname)) =
        (fun fname =>
          (root ++ "/" ++ toString d.year ++ "/" ++ padZero 3 (dayOfYear d) ++ "/") ++ fname) := by
      funext fname
      show root ++ "/" ++ toString d.year ++ "/" ++ padZero 3 (dayOfYear d) ++ "/" ++ fname =
        (root ++ "/" ++ toString d.year ++ "/" ++ padZero 3 (dayOfYear d) ++ "/") ++ fname
      rfl
    rw [hcomp]
    exact hnodup.map (string_append_left_injective _)

/-- C6: an HTTP 404 response, and any other 4xx response, make
`download_file` return failure for that candidate immediately — one
attempt, zero backoff delays — and the unit resolver then proceeds to the
next candidate in order, its result being that of the remaining candidate
list with the one failed attempt added to the fetch count. -/
theorem C6_notfound_fail_fast :
    (∀ (env : Nat → AttemptEnv) (m c l : Nat), 1 ≤ m →
      (env 1).resp = FetchResp.status c l → 400 ≤ c → c < 500 →
      download_file env m = ⟨false, 1, 0, none⟩) ∧
    (∀ (net : String → Nat → AttemptEnv) (m : Nat) (fs : FileSys)
        (u p : String) (rest : List (String × String)),
      fileOk fs p = false → (download_file (net u) m).success = false →
      (resolveGo net m fs ((u, p) :: rest)).1 = (resolveGo net m fs rest).1 ∧
      (resolveGo net m fs ((u, p) :: rest)).2.1 =
        (download_file (net u) m).attempts + (resolveGo net m fs rest).2.1) := by
  constructor
  · intro env m c l hm henv hc1 hc2
    exact download_file_nonretryable env m c l henv hm (by omega) (by omega)
  · intro net m fs u p rest hfile hfail
    have h1 : resolveGo net m fs ((u, p) :: rest) =
        ((resolveGo net m fs rest).1,
          (download_file (net u) m).attempts + (resolveGo net m fs rest).2.1,
          (resolveGo net m fs rest).2.2) := by
      simp [resolveGo, hfile, hfail]
    rw [h1]
    exact ⟨rfl, rfl⟩

/-- C6 witness: a 404 on the first candidate is one attempt, no delay,
and the unit resolver's fetch count is that attempt plus the count from
the remaining candidates. -/
theorem C6_notfound_fail_fast_witness :
    download_file (fun _ => ⟨FetchResp.status 404 0, true⟩) 3 = ⟨false, 1, 0, none⟩ ∧
    (resolveGo (fun _ _ => ⟨FetchResp.status 404 0, true⟩) 3 (fun _ => none)
        [("u1", "p1"), ("u2", "p2")]).2.1 =
      (download_file ((fun (_ : String) (_ : Nat) =>
          (⟨FetchResp.status 404 0, true⟩ : AttemptEnv)) "u1") 3).attempts +
      (resolveGo (fun _ _ => ⟨FetchResp.status 404 0, true⟩) 3 (fun _ => none)
        [("u2", "p2")]).2.1 :=
  ⟨C6_notfound_fail_fast.1 _ 3 404 0 (by decide) rfl (by decide) (by decide),
   (C6_notfound_fail_fast.2 (fun _ _ => ⟨FetchResp.status 404 0, true⟩) 3
      (fun _ => none) "u1" "p1" [("u2", "p2")] rfl (by decide)).2⟩

/-- C7: in a normal (non-dry-run) run whose candidates are all exhausted
without success — no candidate's local file is present with nonzero size
and every candidate's download fails — the unit resolver returns the
first candidate's local path together with success = false. -/
theorem C7_failure_reports_first_path (net : String → Nat → AttemptEnv) (m : Nat)
    (fs : FileSys) (u p : String) (rest : List (String × String))
    (h : ∀ c ∈ (u, p) :: rest,
      fileOk fs c.2 = false ∧ (download_file (net c.1) m).success = false) :
    (download_for_date_station ((u, p) :: rest) net m fs false).1 =
      ⟨some p, false, 0, (resolveGo net m fs ((u, p) :: rest)).2.1⟩ := by
  have hall := resolveGo_all_fail net m fs ((u, p) :: rest) h
  simp [download_for_date_station, hall.1]

/-- C7 witness: two candidates, both 404, empty filesystem — the unit
reports the first candidate's local path and failure. -/
theorem C7_failure_reports_first_path_witness :
    (download_for_date_station [("u1", "p1"), ("u2", "p2")]
        (fun _ _ => ⟨FetchResp.status 404 0, true⟩) 3 (fun _ => none) false).1 =
      ⟨some "p1", false, 0,
        (resolveGo (fun _ _ => ⟨FetchResp.status 404 0, true⟩) 3 (fun _ => none)
          [("u1", "p1"), ("u2", "p2")]).2.1⟩ :=
  C7_failure_reports_first_path _ 3 _ "u1" "p1" [("u2", "p2")] (by decide)

/-- C8: in dry-run mode the unit resolver emits exactly one "would
attempt" report per candidate, performs zero network calls, leaves the
filesystem untouched, and returns success = true; at batch level a dry
run reports once per candidate of every unit, with zero fetches and the
filesystem unchanged; in particular a dry run over 1 entity, 2 dates and
2 candidates per date produces exactly 4 reports and 0 fetches. -/
theorem C8_dry_run :
    (∀ (cands : List (String × String)) (net : String → Nat → AttemptEnv)
        (m : Nat) (fs : FileSys),
      download_for_date_station cands net m fs true =
        (⟨(cands.head?).map Prod.snd, true, cands.length, 0⟩, fs)) ∧
    (∀ (net : String → Nat → AttemptEnv) (m : Nat) (root : String)
        (tasks : List (String × Date)) (fs : FileSys),
      (runBatch net m root true tasks fs).fetches = 0 ∧
      (runBatch net m root true tasks fs).fs = fs ∧
      (runBatch net m root true tasks fs).reports =
        (tasks.map (fun t => (generate_rinex_url_and_path t.1 t.2 root).length)).sum) ∧
    (runBatch (fun _ _ => ⟨FetchResp.exn, true⟩) 3 "root" true
        (batchTasks ["p405"] ⟨2021, 6, 1⟩ ⟨2021, 6, 2⟩ (fun _ => (none, none)))
        (fun _ => none)).reports = 4 ∧
    (runBatch (fun _ _ => ⟨FetchResp.exn, true⟩) 3 "root" true
        (batchTasks ["p405"] ⟨2021, 6, 1⟩ ⟨2021, 6, 2⟩ (fun _ => (none, none)))
        (fun _ => none)).fetches = 0 := by
  have hunit : ∀ (cands : List (String × String)) (net : String → Nat → AttemptEnv)
      (m : Nat) (fs : FileSys),
      download_for_date_station cands net m fs true =
        (⟨(cands.head?).map Prod.snd, true, cands.length, 0⟩, fs) :=
    fun _ _ _ _ => rfl
  have hbatch : ∀ (net : String → Nat → AttemptEnv) (m : Nat) (root : String)
      (tasks : List (String × Date)) (fs : FileSys),
      (runBatch net m root true tasks fs).fetches = 0 ∧
      (runBatch net m root true tasks fs).fs = fs ∧
      (runBatch net m root true tasks fs).reports =
        (tasks.map (fun t => (generate_rinex_url_and_path t.1 t.2 root).length)).sum := by
    intro net m root tasks
    induction tasks with
    | nil => intro fs; exact ⟨rfl, rfl, rfl⟩
    | cons t rest ih =>
      intro fs
      obtain ⟨st, dt⟩ := t
      obtain ⟨ih1, ih2, ih3⟩ := ih fs
      have hu := hunit (generate_rinex_url_and_path st dt root) net m fs
      refine ⟨?_, ?_, ?_⟩
      · simp [runBatch, hu, ih1]
      · simp [runBatch, hu, ih2]
      · simp [runBatch, hu, ih3]
  exact ⟨hunit, hbatch, by decide, by decide⟩

/-- C9: in the result-collection loop, a unit whose resolution raises an
unexpected exception is recorded as a failure for that unit only (path
`None`, success `False`), every other unit's outcome is recorded as
produced, the remaining units continue to be processed (one record per
scheduled unit), and the summary counts satisfy
successes + failures = total scheduled Work Units. -/
theorem C9_unit_isolation (tasks : List (String × Date))
    (outcome : String × Date → Option (Option String × Bool)) :
    (collectResults tasks outcome).length = tasks.length ∧
    countSuccess (collectResults tasks outcome) +
      countFail tasks.length (collectResults tasks outcome) = tasks.length ∧
    (∀ t ∈ tasks, outcome t = none →
      (t, none, false) ∈ collectResults tasks outcome) ∧
    (∀ t ∈ tasks, ∀ p s, outcome t = some (p, s) →
      (t, p, s) ∈ collectResults tasks outcome) := by
  have hlen : (collectResults tasks outcome).length = tasks.length := by
    simp [collectResults]
  have hle : countSuccess (collectResults tasks outcome) ≤ tasks.length := by
    calc countSuccess (collectResults tasks outcome)
        ≤ (collectResults tasks outcome).length := List.length_filter_le _ _
      _ = tasks.length := hlen
  refine ⟨hlen, ?_, ?_, ?_⟩
  · unfold countFail
    omega
  · intro t ht hn
    have hmem := List.mem_map_of_mem (fun t =>
      match outcome t with
      | some r => (t, r.1, r.2)
      | none => (t, none, false)) ht
    have hfun : (fun t => match outcome t with
        | some r => (t, r.1, r.2)
        | none => (t, none, false)) t =
        ((t, none, false) : (String × Date) × Option String × Bool) := by
      show (match outcome t with
        | some r => (t, r.1, r.2)
        | none => (t, none, false)) = _
      rw [hn]
    rw [hfun] at hmem
    exact hmem
  · intro t ht p s hsome
    have hmem := List.mem_map_of_mem (fun t =>
      match outcome t with
      | some r => (t, r.1, r.2)
      | none => (t, none, false)) ht
    have hfun : (fun t => match outcome t with
        | some r => (t, r.1, r.2)
        | none => (t, none, false)) t =
        ((t, p, s) : (String × Date) × Option String × Bool) := by
      show (match outcome t with
        | some r => (t, r.1, r.2)
        | none => (t, none, false)) = _
      rw [hsome]
    rw [hfun] at hmem
    exact hmem

/-- C9 witness: a two-unit batch where the first unit's resolution raises
and the second returns success — both recorded, counts add up to 2. -/
theorem C9_unit_isolation_witness :
    (collectResults [("a", ⟨2021, 6, 1⟩), ("b", ⟨2021, 6, 1⟩)]
        (fun t => if t.1 = "a" then none else some (some "path", true))).length = 2 ∧
    countSuccess (collectResults [("a", ⟨2021, 6, 1⟩), ("b", ⟨2021, 6, 1⟩)]
        (fun t => if t.1 = "a" then none else some (some "path", true))) +
      countFail 2 (collectResults [("a", ⟨2021, 6, 1⟩), ("b", ⟨2021, 6, 1⟩)]
        (fun t => if t.1 = "a" then none else some (some "path", true))) = 2 ∧
    ((("a", ⟨2021, 6, 1⟩), none, false) ∈
      collectResults [("a", ⟨2021, 6, 1⟩), ("b", ⟨2021, 6, 1⟩)]
        (fun t => if t.1 = "a" then none else some (some "path", true))) ∧
    ((("b", ⟨2021, 6, 1⟩), some "path", true) ∈
      collectResults [("a", ⟨2021, 6, 1⟩), ("b", ⟨2021, 6, 1⟩)]
        (fun t => if t.1 = "a" then none else some (some "path", true))) := by
  obtain ⟨h1, h2, h3, h4⟩ := C9_unit_isolation
    [("a", ⟨2021, 6, 1⟩), ("b", ⟨2021, 6, 1⟩)]
    (fun t => if t.1 = "a" then none else some (some "path", true))
  exact ⟨h1, h2, h3 _ (by decide) (by decide),
    h4 _ (by decide) (some "path") true (by decide)⟩

/-- C3 counterexample: one unit (station `p405`, 2021-06-01) whose remote
archive has only the uppercase-variant file.  The first run fetches twice
(404 on the lowercase candidate, 200 on the uppercase one) and the unit
succeeds with a nonempty download; the second run against the resulting
filesystem still performs one fetch — it re-attempts the lowercase
candidate, whose local path does not exist, before the existence check
on the uppercase candidate short-circuits — so the claim's "zero network
fetch attempts on the second run for every unit that succeeded on the
first run" fails. -/
theorem C3_counterexample :
    (let d : Date := ⟨2021, 6, 1⟩
     let tasks := batchTasks ["p405"] d d (fun _ => (none, none))
     let url2 := ((generate_rinex_url_and_path "p405" d "r").getD 1 ("", "")).1
     let net : String → Nat → AttemptEnv := fun u _ =>
       if u = url2 then ⟨FetchResp.status 200 1, true⟩
       else ⟨FetchResp.status 404 0, true⟩
     let run1 := runBatch net 3 "r" false tasks (fun _ => none)
     let run2 := runBatch net 3 "r" false tasks run1.fs
     (run1.results.all fun r => r.2.2.2) ∧
       run1.fetches = 2 ∧ run2.fetches = 1 ∧ run2.fetches ≠ 0) := by
  decide

/-- C3 (amended): running the same batch twice against the same output
root yields zero network fetch attempts on the second run for every unit
that was satisfied via its FIRST candidate on the first run — either the
first candidate's local file was already present with nonzero size, or
its fetch succeeded and wrote a nonempty body; the existence-and-
nonzero-size check then short-circuits before any fetch, and the unit
reports success with zero fetches.  (A unit satisfied via a later
candidate re-attempts the earlier, still-absent candidates on the second
run, as the counterexample shows.) -/
theorem C3_idempotence (u p : String) (rest : List (String × String))
    (net : String → Nat → AttemptEnv) (m : Nat) (fs : FileSys)
    (hfirst : fileOk fs p = true ∨
      ((download_file (net u) m).success = true ∧
        ∃ l, (download_file (net u) m).written = some l ∧ 0 < l)) :
    (download_for_date_station ((u, p) :: rest) net m fs false).1.ok = true ∧
    (download_for_date_station ((u, p) :: rest) net m
        (download_for_date_station ((u, p) :: rest) net m fs false).2 false).1 =
      ⟨some p, true, 0, 0⟩ := by
  rcases hfirst with h | ⟨hs, l, hw, hl⟩
  · rw [resolveUnit_cached u p rest net m fs h]
    rw [resolveUnit_cached u p rest net m fs h]
    exact ⟨rfl, rfl⟩
  · by_cases hc : fileOk fs p = true
    · rw [resolveUnit_cached u p rest net m fs hc]
      rw [resolveUnit_cached u p rest net m fs hc]
      exact ⟨rfl, rfl⟩
    · have hcf : fileOk fs p = false := by
        cases hfb : fileOk fs p
        · rfl
        · exact absurd hfb hc
      have hrun1 : download_for_date_station ((u, p) :: rest) net m fs false =
          (⟨some p, true, 0, (download_file (net u) m).attempts⟩,
            fsWrite fs p ((download_file (net u) m).written.getD 0)) := by
        simp [download_for_date_station, resolveGo, hcf, hs]
      rw [hrun1]
      have hfw : fileOk (fsWrite fs p ((download_file (net u) m).written.getD 0)) p =
          true := by
        simp [fileOk, fsWrite, hw, hl]
      rw [resolveUnit_cached u p rest net m _ hfw]
      exact ⟨rfl, rfl⟩

/-- C3 witness: a unit satisfied via its first candidate by a successful
one-byte download performs zero fetches on the second run. -/
theorem C3_idempotence_witness :
    (download_for_date_station [("u", "p")]
        (fun _ _ => ⟨FetchResp.status 200 5, true⟩) 3 (fun _ => none) false).1.ok = true ∧
    (download_for_date_station [("u", "p")]
        (fun _ _ => ⟨FetchResp.status 200 5, true⟩) 3
        (download_for_date_station [("u", "p")]
          (fun _ _ => ⟨FetchResp.status 200 5, true⟩) 3 (fun _ => none) false).2
        false).1 = ⟨some "p", true, 0, 0⟩ :=
  C3_idempotence "u" "p" [] (fun _ _ => ⟨FetchResp.status 200 5, true⟩) 3
    (fun _ => none) (Or.inr ⟨by decide, 5, by decide, by decide⟩)

/-- C10: in `download_file` the exception handler encloses the success
path, so a local filesystem failure after an HTTP 200 — directory
creation or the file write raising — is handled exactly like a transient
network failure: when every attempt is a 200 whose write fails, the call
behaves identically to an all-transport-exception call, consuming all
`max_retries` attempts with a backoff delay between consecutive attempts;
and a failing write on attempt 1 followed by a working one on attempt 2
is re-attempted after one delay and then succeeds. -/
theorem C10_write_failure_transient :
    (∀ (env : Nat → AttemptEnv) (m : Nat), 1 ≤ m →
      (∀ i, ∃ l, env i = ⟨FetchResp.status 200 l, false⟩) →
      download_file env m = ⟨false, m, m - 1, none⟩ ∧
      download_file env m = download_file (fun _ => ⟨FetchResp.exn, true⟩) m) ∧
    (∀ (env : Nat → AttemptEnv) (m l : Nat), 2 ≤ m →
      env 1 = ⟨FetchResp.status 200 l, false⟩ →
      env 2 = ⟨FetchResp.status 200 l, true⟩ →
      download_file env m = ⟨true, 2, 1, some l⟩) := by
  constructor
  · intro env m hm henv
    have h1 : download_file env m = ⟨false, m, m - 1, none⟩ := by
      refine download_file_transient env m (fun i => ?_) hm
      obtain ⟨l, hi⟩ := henv i
      exact Or.inr (Or.inl ⟨l, by rw [hi], by rw [hi]⟩)
    have h2 : download_file (fun _ => ⟨FetchResp.exn, true⟩) m =
        ⟨false, m, m - 1, none⟩ :=
      download_file_transient _ m (fun _ => Or.inl rfl) hm
    exact ⟨h1, h1.trans h2.symm⟩
  · intro env m l hm h1 h2
    obtain ⟨k, rfl⟩ : ∃ k, m = k + 2 := ⟨m - 2, by omega⟩
    show downloadFileGo env 1 (k + 2) = _
    simp [downloadFileGo, h1, h2]

/-- C10 witness: three all-write-fail attempts match the transport-
exception trace, and a failed write retried once succeeds on attempt 2. -/
theorem C10_write_failure_transient_witness :
    download_file (fun _ => ⟨FetchResp.status 200 3, false⟩) 3 = ⟨false, 3, 2, none⟩ ∧
    download_file (fun i => if i = 1 then ⟨FetchResp.status 200 3, false⟩
      else ⟨FetchResp.status 200 3, true⟩) 2 = ⟨true, 2, 1, some 3⟩ :=
  ⟨(C10_write_failure_transient.1 (fun _ => ⟨FetchResp.status 200 3, false⟩) 3
      (by decide) (fun _ => ⟨3, rfl⟩)).1,
   C10_write_failure_transient.2 _ 2 3 (by decide) rfl rfl⟩

end Rinex
